import Mathlib

/-
Verification of the SypherLang core ledger
(src/src/transaction.py, src/src/blockchain.py, src/src/consensus.py,
src/src/node.py, src/src/network.py), shallowly embedded in Lean.

Conventions of the embedding:
* `time.time()` is abstracted as an explicit `timestamp : Nat` argument at
  every call site that reads the clock.
* The unbounded `while` loop of `proof_of_work` takes explicit fuel and
  returns `Option`: `some` exactly when the loop exits within the fuel.
* `hashlib.sha256(...).hexdigest()` is replaced by an executable stand-in
  `sha256` that is deterministic and length-increasing; the latter property
  is the only fact about the digest the proofs use, and it mirrors the
  real-world fact that a SHA-256 digest of a string that contains a digest
  d is never d itself (no fixed point of h = H(... h ...)).
-/

namespace SypherCore

set_option maxRecDepth 16384

/-- Executable stand-in for `hashlib.sha256(s.encode()).hexdigest()`.
Deterministic, and every digest is strictly longer than its input, so a
stored digest can never equal a digest recomputed over a serialization that
contains it.  The `"0000"` prefix keeps the proof-of-work target reachable
on concrete inputs, so model chains are constructible. -/
def sha256 (s : String) : String := "0000" ++ s

/-- src/src/transaction.py, class Transaction: sender, recipient, amount,
and the identity hash computed by `__init__`. -/
structure Transaction where
  sender : String
  recipient : String
  amount : Int
  hash : String
deriving Repr, DecidableEq

/-- Transaction.compute_hash: digest of the f-string
`f"{self.sender}{self.recipient}{self.amount}"`. -/
def Transaction.computeHash (sender recipient : String) (amount : Int) : String :=
  sha256 (sender ++ recipient ++ toString amount)

/-- Transaction.__init__: stores the three fields and the identity hash.
Note that it performs no validation whatsoever: any amount is accepted. -/
def Transaction.new (sender recipient : String) (amount : Int) : Transaction :=
  { sender := sender, recipient := recipient, amount := amount,
    hash := Transaction.computeHash sender recipient amount }

/-- Transaction.validate: `return self.amount > 0`.  Defined in the source
but never called on the submission path. -/
def Transaction.validate (t : Transaction) : Bool :=
  decide (0 < t.amount)

/-- JSON rendering of a Transaction's `__dict__` with `sort_keys=True`
(key order: amount, hash, recipient, sender).  NOTE: in the Python source
`json.dumps` raises TypeError on Transaction objects, so `Block.compute_hash`
cannot actually run on a block with a non-empty transaction list; the model
totalizes the serialization.  Every decisive concrete input below uses an
empty transaction list, where model and source agree exactly. -/
def Transaction.serialize (t : Transaction) : String :=
  "\x7b\"amount\": " ++ toString t.amount ++ ", \"hash\": \"" ++ t.hash ++
    "\", \"recipient\": \"" ++ t.recipient ++ "\", \"sender\": \"" ++ t.sender ++ "\"\x7d"

/-- JSON rendering of a list of transactions. -/
def serializeTxList (ts : List Transaction) : String :=
  "[" ++ String.intercalate ", " (ts.map Transaction.serialize) ++ "]"

/-- src/src/blockchain.py, class Block: index, transactions, previous_hash,
timestamp, nonce, and the stored hash set by `__init__`. -/
structure Block where
  index : Nat
  transactions : List Transaction
  previous_hash : String
  timestamp : Nat
  nonce : Nat
  hash : String
deriving Repr, DecidableEq

/-- `json.dumps(self.__dict__, sort_keys=True)` as it runs inside
`Block.__init__`: at that moment `self.hash` is not yet set, so the dict has
exactly the five keys index, nonce, previous_hash, timestamp, transactions
(in sorted order). -/
def initDict (index : Nat) (transactions : List Transaction) (previous_hash : String)
    (timestamp nonce : Nat) : String :=
  "\x7b\"index\": " ++ toString index ++ ", \"nonce\": " ++ toString nonce ++
    ", \"previous_hash\": \"" ++ previous_hash ++ "\", \"timestamp\": " ++ toString timestamp ++
    ", \"transactions\": " ++ serializeTxList transactions ++ "\x7d"

/-- `json.dumps(self.__dict__, sort_keys=True)` on any later call to
`compute_hash`: `self.__dict__` now also contains the `hash` attribute
(which sorts first), so the stored hash is part of the digest input. -/
def Block.fullDict (b : Block) : String :=
  "\x7b\"hash\": \"" ++ b.hash ++ "\", \"index\": " ++ toString b.index ++
    ", \"nonce\": " ++ toString b.nonce ++
    ", \"previous_hash\": \"" ++ b.previous_hash ++ "\", \"timestamp\": " ++ toString b.timestamp ++
    ", \"transactions\": " ++ serializeTxList b.transactions ++ "\x7d"

/-- Block.compute_hash as called after `__init__` has completed (from
proof_of_work, create_genesis_block, and is_chain_valid): the digest is taken
over all six attributes, including the stored hash itself. -/
def Block.computeHash (b : Block) : String := sha256 b.fullDict

/-- Block.__init__ with the default nonce 0 (every call site in the source
uses the default): sets the five fields and then
`self.hash = self.compute_hash()`, at which point the dict holds only the
five fields. -/
def Block.new (index : Nat) (transactions : List Transaction) (previous_hash : String)
    (timestamp : Nat) : Block :=
  { index := index, transactions := transactions, previous_hash := previous_hash,
    timestamp := timestamp, nonce := 0,
    hash := sha256 (initDict index transactions previous_hash timestamp 0) }

/-- src/src/blockchain.py, class Blockchain: the chain and the pending pool. -/
structure Blockchain where
  chain : List Block
  pending_transactions : List Transaction
deriving Repr, DecidableEq

/-- Blockchain.difficulty, the class attribute. -/
def Blockchain.difficulty : Nat := 4

/-- The proof-of-work target prefix `'0' * Blockchain.difficulty`. -/
def zeroTarget : String := String.mk (List.replicate Blockchain.difficulty '0')

/-- Python `str.startswith`, modelled over the underlying character lists
(extensionally the byte-level `String.startsWith`, but written so that it
evaluates by plain kernel reduction). -/
def strStartsWith (s pre : String) : Bool :=
  pre.data.isPrefixOf s.data

/-- Blockchain.create_genesis_block: `Block(0, [], "0")` followed by
`genesis_block.hash = genesis_block.compute_hash()` — a recomputation over a
dict that now includes the hash `__init__` just stored. -/
def createGenesisBlock (timestamp : Nat) : Block :=
  let g := Block.new 0 [] "0" timestamp
  { g with hash := g.computeHash }

/-- Blockchain.__init__: empty pool, chain holding exactly the genesis block. -/
def Blockchain.new (timestamp : Nat) : Blockchain :=
  { chain := [createGenesisBlock timestamp], pending_transactions := [] }

/-- Blockchain.add_transaction: an unconditional append to
`pending_transactions` — no validity check and no duplicate check. -/
def Blockchain.addTransaction (bc : Blockchain) (t : Transaction) : Blockchain :=
  { bc with pending_transactions := bc.pending_transactions ++ [t] }

/-- Blockchain.proof_of_work, with explicit fuel for the unbounded while
loop: each iteration increments the nonce and recomputes the hash over the
full dict (which still holds the previous hash value while recomputing). -/
def proofOfWork (fuel : Nat) (b : Block) : Option Block :=
  if strStartsWith b.hash zeroTarget then some b
  else
    match fuel with
    | 0 => none
    | fuel' + 1 =>
      let b' := { b with nonce := b.nonce + 1 }
      proofOfWork fuel' { b' with hash := Block.computeHash b' }

/-- Blockchain.mine_pending_transactions: builds a block at index
`len(self.chain)` on top of `self.chain[-1]`, seals it with proof-of-work,
appends it, and resets the pool to the single reward
`Transaction("network", miner_address, 1)`.  `none` models a proof-of-work
search that did not terminate within the fuel (or the IndexError
`self.chain[-1]` would raise on an empty chain). -/
def minePendingTransactions (bc : Blockchain) (minerAddress : String)
    (timestamp fuel : Nat) : Option Blockchain :=
  match bc.chain.getLast? with
  | none => none
  | some tip =>
    let newBlock := Block.new bc.chain.length bc.pending_transactions tip.hash timestamp
    (proofOfWork fuel newBlock).map fun mined =>
      { chain := bc.chain ++ [mined],
        pending_transactions := [Transaction.new "network" minerAddress 1] }

/-- The loop body of Blockchain.is_chain_valid: for i in 1..len-1, fail if the
stored hash differs from `compute_hash()` (recomputed over the full dict,
hash included) or if the previous_hash link is broken. -/
def validFrom : Block → List Block → Bool
  | _, [] => true
  | prev, cur :: rest =>
    if cur.hash ≠ cur.computeHash then false
    else if cur.previous_hash ≠ prev.hash then false
    else validFrom cur rest

/-- Blockchain.is_chain_valid: walks the chain from index 1; a chain of
length ≤ 1 passes vacuously. -/
def Blockchain.isChainValid (bc : Blockchain) : Bool :=
  match bc.chain with
  | [] => true
  | b :: rest => validFrom b rest

/-- src/src/consensus.py, Consensus.is_chain_valid: wraps the candidate list
in a fresh Blockchain (whose constructor-made genesis and empty pool are
immediately overwritten / irrelevant) and runs Blockchain.is_chain_valid. -/
def Consensus.isChainValid (chain : List Block) : Bool :=
  Blockchain.isChainValid { Blockchain.new 0 with chain := chain }

/-- The candidate scan inside Consensus.resolve_conflicts: `longest_chain`
starts as the local chain and `max_length` as its length; a candidate is
adopted as the running best only if it is strictly longer than the running
best AND passes Consensus.is_chain_valid (Python `and` short-circuits, so
validation runs only after the length test succeeds). -/
def scanCandidates : List Block → Nat → List (List Block) → List Block
  | longest, _, [] => longest
  | longest, maxLength, c :: rest =>
    if maxLength < c.length then
      if Consensus.isChainValid c then scanCandidates c c.length rest
      else scanCandidates longest maxLength rest
    else scanCandidates longest maxLength rest

/-- Consensus.resolve_conflicts, as a function of the owned blockchain's
chain and the fetched peer chains: returns the boolean the method reports
together with the (possibly replaced) chain. -/
def Consensus.resolveConflicts (chain : List Block) (nodeChains : List (List Block)) :
    Bool × List Block :=
  let longest := scanCandidates chain chain.length nodeChains
  if longest ≠ chain then (true, longest) else (false, chain)

/-- src/src/network.py, class Network: peer registry with best-effort HTTP
broadcast/fetch.  The model keeps only what the core logic observes: the
list of chains `get_chains()` successfully retrieves (peers that error are
simply absent from it), and `broadcast` is fire-and-forget, changing no
node-local state. -/
structure Network where
  chains : List (List Block)
deriving Repr, DecidableEq

/-- Network.get_chains: the chains successfully fetched from peers. -/
def Network.getChains (n : Network) : List (List Block) := n.chains

/-- src/src/node.py, class Node: identity address, owned blockchain,
and the network handle. -/
structure Node where
  address : String
  blockchain : Blockchain
  network : Network
deriving Repr, DecidableEq

/-- Node.__init__: fresh blockchain, fresh (empty) network. -/
def Node.new (address : String) (timestamp : Nat) : Node :=
  { address := address, blockchain := Blockchain.new timestamp,
    network := { chains := [] } }

/-- Node.add_transaction: delegates to Blockchain.add_transaction —
unconditional append, no validation, no duplicate check. -/
def Node.addTransaction (n : Node) (t : Transaction) : Node :=
  { n with blockchain := n.blockchain.addTransaction t }

/-- Node.mine: mines the pending transactions to the node's own address and
then broadcasts the chain (the broadcast changes no node-local state). -/
def Node.mine (n : Node) (timestamp fuel : Nat) : Option Node :=
  (minePendingTransactions n.blockchain n.address timestamp fuel).map fun bc =>
    { n with blockchain := bc }

/-- Node.resolve_conflicts: fetches the peer chains and calls
Consensus.resolve_conflicts (which may replace the owned chain), but the
method body has no return statement, so the Python function returns None to
its caller: the `Option Bool` component is that returned value, always
`none`, with the boolean computed by the consensus engine discarded. -/
def Node.resolveConflicts (n : Node) : Option Bool × Node :=
  let r := Consensus.resolveConflicts n.blockchain.chain n.network.getChains
  (none, { n with blockchain := { n.blockchain with chain := r.2 } })

/-- From the spec's words (and the repo's own test
`test_genesis_block_creation`, which asserts
`genesis_block.previous_hash == "0" * 64`): the genesis sentinel as an
all-zero digest — 64 zero nibbles, the length of a SHA-256 hex digest. -/
def specAllZeroDigest : String := String.mk (List.replicate 64 '0')

/-- Every digest is four characters longer than its input. -/
theorem sha256_length (s : String) : (sha256 s).length = 4 + s.length := by
  rw [sha256, String.length_append]
  have h4 : ("0000" : String).length = 4 := rfl
  omega

/-- The serialized full dict is strictly longer than the stored hash it
contains (it embeds the hash verbatim plus the key labels around it). -/
theorem hash_length_lt_fullDict (b : Block) : b.hash.length < b.fullDict.length := by
  have h10 : ("\x7b\"hash\": \"" : String).length = 10 := rfl
  simp only [Block.fullDict, String.length_append, h10]
  omega

/-- The self-referential recomputation can never reproduce the stored hash:
`compute_hash` (as called after `__init__`) digests a serialization that
contains the stored hash, and digests are strictly longer than their input. -/
theorem computeHash_ne_hash (b : Block) : b.computeHash ≠ b.hash := by
  intro h
  have hl := congrArg String.length h
  rw [Block.computeHash, sha256_length] at hl
  have hlt := hash_length_lt_fullDict b
  omega

/-- Consequently the per-block check of `is_chain_valid` fails on every
non-genesis block, whatever its contents. -/
theorem validFrom_cons (prev cur : Block) (rest : List Block) :
    validFrom prev (cur :: rest) = false := by
  simp only [validFrom]
  rw [if_pos (Ne.symm (computeHash_ne_hash cur))]

/-- The candidate scan of Consensus.resolve_conflicts either keeps the
running best unchanged or lands on a scanned candidate that passed
validation and is strictly longer than the initial `max_length`. -/
theorem scanCandidates_spec (cands : List (List Block)) :
    ∀ (longest : List Block) (maxLength : Nat),
      scanCandidates longest maxLength cands = longest ∨
        ∃ c, c ∈ cands ∧ scanCandidates longest maxLength cands = c ∧
          Consensus.isChainValid c = true ∧ maxLength < c.length := by
  induction cands with
  | nil => intro longest maxLength; exact Or.inl rfl
  | cons c rest ih =>
    intro longest maxLength
    simp only [scanCandidates]
    by_cases hlen : maxLength < c.length
    · rw [if_pos hlen]
      by_cases hval : Consensus.isChainValid c = true
      · rw [if_pos hval]
        rcases ih c c.length with h | ⟨d, hd, hEq, hdval, hdlen⟩
        · exact Or.inr ⟨c, List.mem_cons_self c rest, h, hval, hlen⟩
        · exact Or.inr ⟨d, List.mem_cons_of_mem c hd, hEq, hdval, Nat.lt_trans hlen hdlen⟩
      · rw [if_neg hval]
        rcases ih longest maxLength with h | ⟨d, hd, hEq, hdval, hdlen⟩
        · exact Or.inl h
        · exact Or.inr ⟨d, List.mem_cons_of_mem c hd, hEq, hdval, hdlen⟩
    · rw [if_neg hlen]
      rcases ih longest maxLength with h | ⟨d, hd, hEq, hdval, hdlen⟩
      · exact Or.inl h
      · exact Or.inr ⟨d, List.mem_cons_of_mem c hd, hEq, hdval, hdlen⟩

/-- C1: refuted on the code.  For a chain built solely from the genesis block
by appending a block produced by mine_pending_transactions / proof_of_work —
with no tampering whatsoever — is_chain_valid returns false, not true: the
validation recomputes each block's hash over `self.__dict__`, which by then
contains the stored hash itself, so the recomputed digest can never match. -/
theorem c1_mined_chain_invalid (t1 t2 fuel : Nat) (miner : String) (bc : Blockchain)
    (h : minePendingTransactions (Blockchain.new t1) miner t2 fuel = some bc) :
    bc.isChainValid = false ∧ bc.chain.length = 2 := by
  have h' : (proofOfWork fuel
        (Block.new (Blockchain.new t1).chain.length [] (createGenesisBlock t1).hash t2)).map
      (fun mined =>
        ({ chain := (Blockchain.new t1).chain ++ [mined],
           pending_transactions := [Transaction.new "network" miner 1] } : Blockchain))
      = some bc := h
  rcases Option.map_eq_some'.mp h' with ⟨mined, _, rfl⟩
  exact ⟨validFrom_cons (createGenesisBlock t1) mined [], rfl⟩

/-- C1 witness: the concrete fresh chain mined once (empty mempool, so the
model serialization and the Python source agree exactly on this input). -/
theorem c1_mined_chain_invalid_witness :
    ((minePendingTransactions (Blockchain.new 0) "miner" 1 0).get (by decide)).isChainValid
        = false ∧
    ((minePendingTransactions (Blockchain.new 0) "miner" 1 0).get (by decide)).chain.length = 2 :=
  c1_mined_chain_invalid 0 1 0 "miner" _ rfl

/-- C2: refuted on the code.  The genesis block's stored hash is the digest
of the six-key dict that includes the hash set by `__init__` (because
create_genesis_block recomputes over `self.__dict__` after construction),
and it differs from the digest of exactly the five fields index,
transactions, previous_hash, timestamp, nonce.  The same six-key dict is
what every proof_of_work recomputation and every validation digests. -/
theorem c2_hash_field_hashed (timestamp : Nat) :
    (createGenesisBlock timestamp).hash
        = sha256 (Block.fullDict (Block.new 0 [] "0" timestamp)) ∧
    (createGenesisBlock timestamp).hash ≠ sha256 (initDict 0 [] "0" timestamp 0) :=
  ⟨rfl, computeHash_ne_hash (Block.new 0 [] "0" timestamp)⟩

/-- C3: for every local chain and every collection of candidate chains,
Consensus.resolve_conflicts either leaves the local chain untouched or
replaces it by one of the candidates that is strictly longer than the local
chain (so equal length never replaces) and passes the validity check. -/
theorem c3_adopt_only_longer_valid (chain : List Block) (cands : List (List Block)) :
    (Consensus.resolveConflicts chain cands).2 = chain ∨
      ((Consensus.resolveConflicts chain cands).2 ∈ cands ∧
        chain.length < (Consensus.resolveConflicts chain cands).2.length ∧
        Consensus.isChainValid (Consensus.resolveConflicts chain cands).2 = true) := by
  simp only [Consensus.resolveConflicts]
  rcases scanCandidates_spec cands chain chain.length with h | ⟨c, hc, hEq, hval, hlen⟩
  · rw [h, if_neg (not_not_intro rfl)]
    exact Or.inl rfl
  · have hne : c ≠ chain := by
      intro hcc
      rw [hcc] at hlen
      exact Nat.lt_irrefl _ hlen
    rw [hEq, if_pos hne]
    exact Or.inr ⟨hc, hlen, hval⟩

/-- C4: refuted on the code.  Submitting a transaction with amount ≤ 0 does
not fail with InvalidAmount: Transaction.__init__ performs no check,
Node.add_transaction appends unconditionally, and Transaction.validate (the
code's own validity predicate, which is false here) is never called on the
submission path — the mempool grows by one and contains the bad record. -/
theorem c4_negative_amount_accepted :
    (Transaction.new "Eve" "Mallory" (-5)).validate = false ∧
    (Transaction.new "Eve" "Mallory" (-5)).amount ≤ 0 ∧
    (Node.addTransaction (Node.new "N" 0)
        (Transaction.new "Eve" "Mallory" (-5))).blockchain.pending_transactions
      = [Transaction.new "Eve" "Mallory" (-5)] ∧
    (Node.addTransaction (Node.new "N" 0)
        (Transaction.new "Eve" "Mallory" (-5))).blockchain.pending_transactions.length
      = (Node.new "N" 0).blockchain.pending_transactions.length + 1 :=
  ⟨rfl, by decide, rfl, rfl⟩

/-- C5 counterexample: after adding a transaction once, its identity hash is
present in the mempool, yet adding the very same transaction again changes
the mempool (it is appended a second time) instead of leaving it unchanged
with a DuplicateTransaction failure. -/
theorem c5_duplicate_changes_mempool :
    (Transaction.new "Alice" "Bob" 3).hash ∈
        ((Blockchain.new 0).addTransaction
          (Transaction.new "Alice" "Bob" 3)).pending_transactions.map Transaction.hash ∧
    (((Blockchain.new 0).addTransaction (Transaction.new "Alice" "Bob" 3)).addTransaction
          (Transaction.new "Alice" "Bob" 3)).pending_transactions
      ≠ ((Blockchain.new 0).addTransaction
          (Transaction.new "Alice" "Bob" 3)).pending_transactions :=
  ⟨by decide, by decide⟩

/-- C5 as amended: adding a transaction whose identity hash is already
present in the mempool does not fail and does not leave the pool unchanged —
Blockchain.add_transaction appends unconditionally, so the duplicate is
inserted and the pool grows by exactly one. -/
theorem c5_duplicate_still_inserted (bc : Blockchain) (t : Transaction)
    (_h : t.hash ∈ bc.pending_transactions.map Transaction.hash) :
    (bc.addTransaction t).pending_transactions = bc.pending_transactions ++ [t] ∧
    (bc.addTransaction t).pending_transactions.length
      = bc.pending_transactions.length + 1 :=
  ⟨rfl, by simp [Blockchain.addTransaction]⟩

/-- C5 witness: a concrete mempool already holding the duplicate's hash. -/
theorem c5_duplicate_still_inserted_witness :
    (((Blockchain.new 0).addTransaction (Transaction.new "A" "B" 2)).addTransaction
          (Transaction.new "A" "B" 2)).pending_transactions
      = ((Blockchain.new 0).addTransaction
          (Transaction.new "A" "B" 2)).pending_transactions ++ [Transaction.new "A" "B" 2] ∧
    (((Blockchain.new 0).addTransaction (Transaction.new "A" "B" 2)).addTransaction
          (Transaction.new "A" "B" 2)).pending_transactions.length
      = ((Blockchain.new 0).addTransaction
          (Transaction.new "A" "B" 2)).pending_transactions.length + 1 :=
  c5_duplicate_still_inserted _ _ (by decide)

/-- C6: whenever Node.mine completes, the pending pool afterwards holds
exactly the single reward transaction crediting the node's own address, and
the chain is exactly one block longer than before. -/
theorem c6_mine_reward_and_growth (n n' : Node) (timestamp fuel : Nat)
    (h : Node.mine n timestamp fuel = some n') :
    n'.blockchain.pending_transactions = [Transaction.new "network" n.address 1] ∧
    n'.blockchain.chain.length = n.blockchain.chain.length + 1 := by
  rcases Option.map_eq_some'.mp h with ⟨bc, hbc, hn⟩
  subst hn
  unfold minePendingTransactions at hbc
  cases hLast : n.blockchain.chain.getLast? with
  | none => rw [hLast] at hbc; exact absurd hbc (by simp)
  | some tip =>
    rw [hLast] at hbc
    rcases Option.map_eq_some'.mp hbc with ⟨mined, _, hbc2⟩
    subst hbc2
    exact ⟨rfl, by simp⟩

/-- C6 witness: a fresh node mined once. -/
theorem c6_mine_reward_and_growth_witness :
    ((Node.mine (Node.new "m" 0) 1 0).get (by decide)).blockchain.pending_transactions
        = [Transaction.new "network" "m" 1] ∧
    ((Node.mine (Node.new "m" 0) 1 0).get (by decide)).blockchain.chain.length = 2 :=
  c6_mine_reward_and_growth (Node.new "m" 0) _ 1 0 rfl

/-- C7: whenever the proof-of-work search terminates, the returned block's
stored hash starts with `'0' * Blockchain.difficulty` — at least `difficulty`
leading zero nibbles — and the code's difficulty value is 4. -/
theorem c7_pow_leading_zeros (fuel : Nat) (b b' : Block)
    (h : proofOfWork fuel b = some b') :
    strStartsWith b'.hash zeroTarget = true ∧ Blockchain.difficulty = 4 := by
  refine ⟨?_, rfl⟩
  induction fuel generalizing b with
  | zero =>
    rw [proofOfWork] at h
    by_cases hc : strStartsWith b.hash zeroTarget = true
    · rw [if_pos hc] at h
      injection h with h2
      subst h2
      exact hc
    · rw [if_neg hc] at h
      exact absurd h (by simp)
  | succ fuel ih =>
    rw [proofOfWork] at h
    by_cases hc : strStartsWith b.hash zeroTarget = true
    · rw [if_pos hc] at h
      injection h with h2
      subst h2
      exact hc
    · rw [if_neg hc] at h
      exact ih _ h

/-- C7 witness: a concrete block on which the search terminates. -/
theorem c7_pow_leading_zeros_witness :
    strStartsWith (Block.new 0 [] "0" 0).hash zeroTarget = true ∧
    Blockchain.difficulty = 4 :=
  c7_pow_leading_zeros 0 (Block.new 0 [] "0" 0) (Block.new 0 [] "0" 0) rfl

/-- C8: refuted on the code.  At an input where the consensus engine does
replace the chain and computes changed = true, Node.resolve_conflicts still
returns None to its caller (its body has no return statement), even though
it does apply the replacement to the owned chain. -/
theorem c8_flag_dropped_by_node :
    (Consensus.resolveConflicts ([] : List Block) [[createGenesisBlock 0]]).1 = true ∧
    (Node.resolveConflicts
        { address := "n",
          blockchain := { chain := [], pending_transactions := [] },
          network := { chains := [[createGenesisBlock 0]] } }).1 = none ∧
    (Node.resolveConflicts
        { address := "n",
          blockchain := { chain := [], pending_transactions := [] },
          network := { chains := [[createGenesisBlock 0]] } }).2.blockchain.chain
      = [createGenesisBlock 0] :=
  ⟨by decide, rfl, by decide⟩

/-- C9: refuted on the code in one respect.  The genesis block of a freshly
constructed chain does have index 0 and an empty transaction list, and its
previous_hash is the fixed sentinel — but that sentinel is the one-character
string "0", not the all-zero 64-nibble digest the spec (and the repo's own
test_genesis_block_creation) calls for. -/
theorem c9_genesis_fields (timestamp : Nat) :
    (Blockchain.new timestamp).chain.map Block.index = [0] ∧
    (Blockchain.new timestamp).chain.map Block.transactions = [[]] ∧
    (Blockchain.new timestamp).chain.map Block.previous_hash = ["0"] ∧
    "0" ≠ specAllZeroDigest :=
  ⟨rfl, rfl, rfl, by decide⟩

/-- C10: conflict resolution never shortens the local chain — the chain
after Consensus.resolve_conflicts is at least as long as before. -/
theorem c10_resolve_never_shortens (chain : List Block) (cands : List (List Block)) :
    chain.length ≤ (Consensus.resolveConflicts chain cands).2.length := by
  simp only [Consensus.resolveConflicts]
  rcases scanCandidates_spec cands chain chain.length with h | ⟨c, _, hEq, _, hlen⟩
  · rw [h, if_neg (not_not_intro rfl)]
  · have hne : c ≠ chain := by
      intro hcc
      rw [hcc] at hlen
      exact Nat.lt_irrefl _ hlen
    rw [hEq, if_pos hne]
    exact Nat.le_of_lt hlen

end SypherCore
